/-
Verification of the portfolio CRUD backend (backend/main.py, schemas.py).

Shallow embedding notes:
  - The document store is modelled as Lean lists of typed documents, one list
    per collection, gathered in the `DB` state record.  Mongo `_id` values
    (bson ObjectId) are modelled as natural numbers obtained by reading the
    24-hex-digit id string; `bson.ObjectId` accepts exactly 24 hex characters
    (either case) and raises `InvalidId` otherwise, which FastAPI does not
    catch, so it surfaces as an unhandled server error.
  - `datetime` timestamps on stored documents are modelled as integers; the
    rate limiter uses `time.time()` float seconds, modelled as rationals.
  - Pydantic request models become Lean structures with the same fields and
    defaults.  `model_dump()` is the identity on these records.
  - `HTTPException(status, detail)` is `ApiErr.http status detail`; any other
    Python exception escaping a handler is `ApiErr.unhandled msg` (FastAPI
    turns it into a 500 server error).
  - Handlers thread the store state explicitly: a handler returns
    `Except ApiErr response × DB`.  A Python exception raised midway leaves
    the writes already performed in place, which the embedding reproduces by
    returning the partially-updated state together with the error.
  - The `if db is None` guards model the unconfigured-store case; the claims
    all concern a configured store, so the embedding fixes `db` as present.
    `require_admin` is a pure token comparison done before the handler body
    and is likewise outside the embedded handlers.
  - Mongo `$regex` with option `i` and a literal pattern is case-insensitive
    substring matching; regex metacharacters are not modelled.  On an array
    field it matches when some element matches.
  - `pymongo` semantics embedded: `cursor.skip n` demands `0 ≤ n` and raises
    `ValueError` otherwise; `cursor.limit 0` means no limit and a negative
    limit returns at most the absolute value many documents.
-/
import Mathlib

set_option autoImplicit false

deriving instance DecidableEq for Except

namespace Portfolio

/-! ## Generic list helpers (Mongo write primitives) -/

/-- `update_one`: rewrite the first element satisfying `p` with `f`. -/
def updateFirst {α : Type} (p : α → Bool) (f : α → α) : List α → List α
  | [] => []
  | a :: as => if p a then f a :: as else a :: updateFirst p f as

/-- `delete_one`: remove the first element satisfying `p`. -/
def removeFirst {α : Type} (p : α → Bool) : List α → List α
  | [] => []
  | a :: as => if p a then as else a :: removeFirst p as

/-- Insertion step of the sort used to model Mongo `cursor.sort`. -/
def insertBy {α : Type} (le : α → α → Bool) (a : α) : List α → List α
  | [] => [a]
  | b :: bs => if le a b then a :: b :: bs else b :: insertBy le a bs

/-- A total sort modelling Mongo `cursor.sort` on the given comparator. -/
def sortBy {α : Type} (le : α → α → Bool) : List α → List α
  | [] => []
  | a :: as => insertBy le a (sortBy le as)

/-- `cursor.limit`: limit 0 means no limit; a negative limit caps at its
absolute value (pymongo closes the cursor after one batch of that size). -/
def pageTake {α : Type} (limit : Int) (l : List α) : List α :=
  if limit == 0 then l else l.take limit.natAbs

/-! ## ObjectId strings -/

def isHexChar (c : Char) : Bool :=
  c.isDigit || (('a' ≤ c && c ≤ 'f') || ('A' ≤ c && c ≤ 'F'))

/-- `bson.ObjectId` accepts exactly a 24-character hex string. -/
def isValidOid (s : String) : Bool :=
  s.length == 24 && s.data.all isHexChar

def hexCharVal (c : Char) : Nat :=
  if c.isDigit then c.toNat - 48
  else if 'a' ≤ c && c ≤ 'f' then c.toNat - 87
  else c.toNat - 55

/-- Numeric value of a hex id string (the 12-byte ObjectId as a number). -/
def oidVal (s : String) : Nat :=
  s.data.foldl (fun a c => a * 16 + hexCharVal c) 0

def hexDigitChar (n : Nat) : Char :=
  if n < 10 then Char.ofNat (48 + n) else Char.ofNat (87 + n)

def oidChars : Nat → Nat → List Char
  | 0, _ => []
  | k + 1, n => oidChars k (n / 16) ++ [hexDigitChar (n % 16)]

/-- `str(ObjectId)`: lowercase 24-hex-digit rendering. -/
def oidStr (n : Nat) : String :=
  ⟨oidChars 24 n⟩

/-! ## Errors -/

/-- Outcome classification of a handler: a raised `HTTPException` keeps its
status code; any other escaping Python exception is `unhandled` and FastAPI
reports it as a 500 server error. -/
inductive ApiErr : Type where
  | http (status : Nat) (detail : String)
  | unhandled (msg : String)
deriving DecidableEq

/-- A client error is an `HTTPException` with a 4xx status; an unhandled
exception is a server error, never a client error. -/
def isClientError : ApiErr → Bool
  | ApiErr.http s _ => decide (400 ≤ s) && decide (s < 500)
  | ApiErr.unhandled _ => false

/-- `ObjectId(id)`: parse or raise `InvalidId` (an unhandled exception). -/
def parseOid (s : String) : Except ApiErr Nat :=
  if isValidOid s then Except.ok (oidVal s)
  else Except.error (ApiErr.unhandled ("InvalidId: " ++ s))

/-- The id parses of a list of strings, in order, stopping at the first
failure (Python list comprehension / loop evaluation order). -/
def parseOids : List String → Except ApiErr (List Nat)
  | [] => Except.ok []
  | s :: rest =>
    match parseOid s with
    | Except.error e => Except.error e
    | Except.ok v =>
      match parseOids rest with
      | Except.error e => Except.error e
      | Except.ok vs => Except.ok (v :: vs)

/-! ## Schemas (schemas.py), with the pydantic defaults -/

structure Project where
  title : String
  slug : String
  shortDesc : String
  longDesc : Option String := none
  tech : List String := []
  tags : List String := []
  liveDemoUrl : Option String := none
  githubUrl : Option String := none
  images : List String := []
  featured : Bool := false
  published : Bool := false
  orderIndex : Int := 0
  createdAt : Option Int := none
  updatedAt : Option Int := none
  deleted : Bool := false
deriving DecidableEq

structure Skill where
  name : String
  level : Int
  category : String
  icon : Option String := none
  description : Option String := none
  orderIndex : Int := 0
  published : Bool := true
  deleted : Bool := false
deriving DecidableEq

structure Testimonial where
  name : String
  role : Option String := none
  quote : String
  avatar : Option String := none
  sourceUrl : Option String := none
  orderIndex : Int := 0
  published : Bool := false
  deleted : Bool := false
deriving DecidableEq

structure Certificate where
  title : String
  issuer : String
  issueDate : String
  image : Option String := none
  description : Option String := none
  tags : List String := []
  published : Bool := false
  deleted : Bool := false
deriving DecidableEq

/-! ## Stored documents: payload fields plus `_id` and the snake-case
timestamps that the handlers add on create/update. -/

structure ProjectDoc where
  oid : Nat
  data : Project
  created_at : Int
  updated_at : Int
deriving DecidableEq

structure SkillDoc where
  oid : Nat
  data : Skill
  created_at : Int
  updated_at : Int
deriving DecidableEq

structure TestimonialDoc where
  oid : Nat
  data : Testimonial
  created_at : Int
  updated_at : Int
deriving DecidableEq

structure CertificateDoc where
  oid : Nat
  data : Certificate
  created_at : Int
  updated_at : Int
deriving DecidableEq

/-- One `activitylog` document as written by the admin handlers. -/
structure LogEntry where
  user_email : String
  action : String
  entity : String
  entity_id : String
  timestamp : Int
deriving DecidableEq

/-- The document store: one list per collection, in insertion order. -/
structure DB where
  project : List ProjectDoc
  skill : List SkillDoc
  testimonial : List TestimonialDoc
  certificate : List CertificateDoc
  activitylog : List LogEntry
deriving DecidableEq

/-! ## Query predicates (the Mongo filter documents built by the handlers) -/

/-- Is the first character list a prefix of the second? -/
def charsPrefixOf : List Char → List Char → Bool
  | [], _ => true
  | _ :: _, [] => false
  | a :: as, b :: bs => a == b && charsPrefixOf as bs

/-- Does the first character list occur contiguously inside the second? -/
def charsSubOf : List Char → List Char → Bool
  | pat, [] => pat.isEmpty
  | pat, c :: cs => charsPrefixOf pat (c :: cs) || charsSubOf pat cs

/-- Case-insensitive substring test: Mongo `$regex` with option `i` on a
literal pattern. -/
def strContainsCI (hay pat : String) : Bool :=
  charsSubOf (pat.data.map Char.toLower) (hay.data.map Char.toLower)

/-- A FastAPI optional string query parameter used under Python truthiness:
`None` and the empty string both leave the filter out. -/
def optActive (o : Option String) (f : String → Bool) : Bool :=
  match o with
  | none => true
  | some s => if s == "" then true else f s

/-- Filter document of `list_projects`: always `deleted != true`, then the
optional `published` equality, `tags` membership, and `$or` regex search over
title, shortDesc and tags. -/
def projectQueryMatch (published : Option Bool) (tag search : Option String)
    (d : ProjectDoc) : Bool :=
  (d.data.deleted != true)
    && (match published with
        | none => true
        | some p => d.data.published == p)
    && optActive tag (fun t => d.data.tags.contains t)
    && optActive search (fun s =>
        strContainsCI d.data.title s || strContainsCI d.data.shortDesc s
          || d.data.tags.any (fun t => strContainsCI t s))

/-- Filter of `list_skills`: `deleted != true`, `published = true`, optional
category equality and `$or` search over name and category. -/
def skillQueryMatch (category search : Option String) (d : SkillDoc) : Bool :=
  (d.data.deleted != true) && (d.data.published == true)
    && optActive category (fun c => d.data.category == c)
    && optActive search (fun s =>
        strContainsCI d.data.name s || strContainsCI d.data.category s)

/-- Filter of `list_testimonials`: `deleted != true`, `published = true`. -/
def testimonialQueryMatch (d : TestimonialDoc) : Bool :=
  (d.data.deleted != true) && (d.data.published == true)

/-- Filter of `list_certificates`: `deleted != true`, `published = true`,
optional tag membership and `$or` search over title, issuer and tags. -/
def certificateQueryMatch (tag search : Option String)
    (d : CertificateDoc) : Bool :=
  (d.data.deleted != true) && (d.data.published == true)
    && optActive tag (fun t => d.data.tags.contains t)
    && optActive search (fun s =>
        strContainsCI d.data.title s || strContainsCI d.data.issuer s
          || d.data.tags.any (fun t => strContainsCI t s))

/-- Project sort `[(featured, -1), (orderIndex, 1), (created_at, -1)]`. -/
def projectSortLE (a b : ProjectDoc) : Bool :=
  if a.data.featured != b.data.featured then a.data.featured
  else if a.data.orderIndex != b.data.orderIndex then
    decide (a.data.orderIndex < b.data.orderIndex)
  else decide (b.created_at ≤ a.created_at)

def skillSortLE (a b : SkillDoc) : Bool :=
  decide (a.data.orderIndex ≤ b.data.orderIndex)

def testimonialSortLE (a b : TestimonialDoc) : Bool :=
  decide (a.data.orderIndex ≤ b.data.orderIndex)

/-- Certificates sort by `("_id", -1)`: newest (largest id) first. -/
def certificateSortLE (a b : CertificateDoc) : Bool :=
  decide (b.oid ≤ a.oid)

/-! ## Public read endpoints -/

/-- Response shape of GET /api/projects. -/
structure PageResp where
  items : List ProjectDoc
  total : Nat
  page : Int
  limit : Int
deriving DecidableEq

/-- GET /api/projects (main.py `list_projects`).  Builds the filter, sorts,
counts the matches for `total`, then applies `skip((page-1)*limit)` and
`limit(limit)`.  A negative skip raises `ValueError` in pymongo, which is
unhandled in the endpoint. -/
def list_projects (st : DB) (published : Option Bool) (tag search : Option String)
    (page limit : Int) : Except ApiErr PageResp :=
  let q := projectQueryMatch published tag search
  let matching := st.project.filter q
  let total := matching.length
  let skip := (page - 1) * limit
  if skip < 0 then Except.error (ApiErr.unhandled "ValueError: skip must be a nonnegative integer")
  else Except.ok
    { items := pageTake limit ((sortBy projectSortLE matching).drop skip.toNat)
      total := total
      page := page
      limit := limit }

/-- GET /api/projects/slug (main.py `get_project`): `find_one` on slug with
the soft-delete exclusion, 404 when nothing matches. -/
def get_project (st : DB) (slug : String) : Except ApiErr ProjectDoc :=
  match st.project.find? (fun d => d.data.slug == slug && d.data.deleted != true) with
  | some d => Except.ok d
  | none => Except.error (ApiErr.http 404 "Not found")

/-- GET /api/skills (main.py `list_skills`). -/
def list_skills (st : DB) (category search : Option String) : List SkillDoc :=
  sortBy skillSortLE (st.skill.filter (skillQueryMatch category search))

/-- GET /api/testimonials (main.py `list_testimonials`). -/
def list_testimonials (st : DB) : List TestimonialDoc :=
  sortBy testimonialSortLE (st.testimonial.filter testimonialQueryMatch)

/-- GET /api/certificates (main.py `list_certificates`). -/
def list_certificates (st : DB) (tag search : Option String) : List CertificateDoc :=
  sortBy certificateSortLE (st.certificate.filter (certificateQueryMatch tag search))

/-! ## Admin mutation endpoints.

Each handler takes `now` (the `datetime.now` reading), the request payload,
and for the handlers that write the activity log a flag `logFails` saying
whether the `activitylog` insert raises (a store fault on that one write).
The pair returned is (HTTP outcome, store state after the handler returns or
the exception escapes). -/

def projectLog (action entity_id : String) (now : Int) : LogEntry :=
  { user_email := "admin", action := action, entity := "project"
    entity_id := entity_id, timestamp := now }

/-- POST /api/admin/projects (main.py `create_project`).  Builds the stored
document from the payload plus fresh timestamps, rejects a duplicate slug
(matching any document, soft-deleted included) with HTTP 400 before
inserting, then inserts and logs.  `newOid` is the ObjectId the store
assigns the inserted document. -/
def create_project (st : DB) (now : Int) (payload : Project) (newOid : Nat)
    (logFails : Bool) : Except ApiErr String × DB :=
  if st.project.any (fun d => d.data.slug == payload.slug) then
    (Except.error (ApiErr.http 400 "Slug already exists"), st)
  else
    let doc : ProjectDoc :=
      { oid := newOid, data := payload, created_at := now, updated_at := now }
    let st1 : DB := { st with project := st.project ++ [doc] }
    if logFails then
      (Except.error (ApiErr.unhandled "activitylog insert failed"), st1)
    else
      (Except.ok (oidStr newOid),
        { st1 with activitylog := st1.activitylog ++ [projectLog "create" (oidStr newOid) now] })

/-- The `$set` document of `update_project`: every payload field plus a fresh
`updated_at`; the stored `created_at` is not in the set and survives. -/
def applyUpdate (payload : Project) (now : Int) (d : ProjectDoc) : ProjectDoc :=
  { d with data := payload, updated_at := now }

/-- PUT /api/admin/projects/id (main.py `update_project`).  `ObjectId(id)`
raises on a malformed id before any write; `update_one` with `$set` of the
full payload; 404 when no document matched; then the activity log entry. -/
def update_project (st : DB) (now : Int) (id : String) (payload : Project)
    (logFails : Bool) : Except ApiErr Unit × DB :=
  match parseOid id with
  | Except.error e => (Except.error e, st)
  | Except.ok v =>
    if st.project.any (fun d => d.oid == v) then
      let st1 : DB :=
        { st with project := updateFirst (fun d => d.oid == v) (applyUpdate payload now) st.project }
      if logFails then
        (Except.error (ApiErr.unhandled "activitylog insert failed"), st1)
      else
        (Except.ok (),
          { st1 with activitylog := st1.activitylog ++ [projectLog "update" id now] })
    else
      (Except.error (ApiErr.http 404 "Not found"), st)

/-- The `$set` document of the soft-delete branch. -/
def applySoftDelete (now : Int) (d : ProjectDoc) : ProjectDoc :=
  { d with data := { d.data with deleted := true }, updated_at := now }

/-- DELETE /api/admin/projects/id (main.py `delete_project`).  Hard delete
removes the matching document, soft delete sets the flag; neither branch
checks that anything matched, and the log entry is written regardless. -/
def delete_project (st : DB) (now : Int) (id : String) (hard : Bool)
    (logFails : Bool) : Except ApiErr Unit × DB :=
  match parseOid id with
  | Except.error e => (Except.error e, st)
  | Except.ok v =>
    let proj :=
      if hard then removeFirst (fun d => d.oid == v) st.project
      else updateFirst (fun d => d.oid == v) (applySoftDelete now) st.project
    let st1 : DB := { st with project := proj }
    if logFails then
      (Except.error (ApiErr.unhandled "activitylog insert failed"), st1)
    else
      (Except.ok (),
        { st1 with activitylog := st1.activitylog ++ [projectLog "delete" id now] })

/-- POST /api/admin/projects/bulk-publish (main.py `bulk_publish_projects`).
All ids are parsed first (the list comprehension), so a malformed id aborts
before any write; `update_many` then sets `published` and `updated_at` on
every matching document.  No activity log entry is written here. -/
def bulk_publish_projects (st : DB) (now : Int) (ids : List String)
    (published : Bool) : Except ApiErr Unit × DB :=
  match parseOids ids with
  | Except.error e => (Except.error e, st)
  | Except.ok vs =>
    (Except.ok (),
      { st with project := st.project.map (fun d =>
          if vs.contains d.oid then
            { d with data := { d.data with published := published }, updated_at := now }
          else d) })

/-- The loop body of `reorder_projects`: one `update_one` per id, with the
running positional index; a malformed id raises mid-loop, keeping the writes
already made. -/
def reorderLoop (docs : List ProjectDoc) (idx : Nat) :
    List String → Except ApiErr Unit × List ProjectDoc
  | [] => (Except.ok (), docs)
  | id :: rest =>
    match parseOid id with
    | Except.error e => (Except.error e, docs)
    | Except.ok v =>
      reorderLoop
        (updateFirst (fun d => d.oid == v)
          (fun d => { d with data := { d.data with orderIndex := (idx : Int) } }) docs)
        (idx + 1) rest

/-- POST /api/admin/projects/reorder (main.py `reorder_projects`).  Sets
`orderIndex` only — no `updated_at` refresh and no activity log entry. -/
def reorder_projects (st : DB) (ids : List String) : Except ApiErr Unit × DB :=
  let r := reorderLoop st.project 0 ids
  (r.1.map (fun _ => ()), { st with project := r.2 })

/-! ## Contact endpoint rate limiter (main.py `contact`, lines 460-470).

`_rate_cache` maps a caller key (client host) to the timestamps of its
accepted submissions.  On each call the entry is pruned to the 60-second
window; three or more surviving timestamps raise HTTP 429 before the cache
assignment, so a rejected call leaves the cache unchanged.  The activity-log
insert after acceptance does not influence acceptance and is not modelled. -/

def RateCache : Type := List (String × List ℚ)

def cacheGet (c : RateCache) (k : String) : List ℚ :=
  (List.lookup k c).getD []

def cacheSet (c : RateCache) (k : String) (v : List ℚ) : RateCache :=
  (k, v) :: c.filter (fun e => e.1 != k)

def emptyCache : RateCache := []

/-- One call of the rate-limit gate: `true` means the submission is
accepted. -/
def contactRL (c : RateCache) (ip : String) (now : ℚ) : Bool × RateCache :=
  let window : ℚ := 60
  let entry := (cacheGet c ip).filter (fun t => now - t < window)
  if 3 ≤ entry.length then (false, c)
  else (true, cacheSet c ip (entry ++ [now]))

/-- Run a sequence of (key, time) submissions through the gate. -/
def runRL : RateCache → List (String × ℚ) → RateCache × List Bool
  | c, [] => (c, [])
  | c, (k, t) :: es =>
    let r := contactRL c k t
    let rest := runRL r.2 es
    (rest.1, r.1 :: rest.2)

/-- The times of the accepted submissions of key `k` along a run. -/
def acceptedTimes (c : RateCache) (k : String) : List (String × ℚ) → List ℚ
  | [] => []
  | (k', t) :: es =>
    let r := contactRL c k' t
    (if k' == k && r.1 then [t] else []) ++ acceptedTimes r.2 k es

/-- 0-based position of the first occurrence of `v`. -/
def findPos (v : Nat) : List Nat → Option Nat
  | [] => none
  | x :: xs => if x == v then some 0 else (findPos v xs).map (fun i => i + 1)

/-! ## Helper lemmas about the list primitives -/

theorem mem_insertBy {α : Type} (le : α → α → Bool) (a x : α) (l : List α) :
    x ∈ insertBy le a l ↔ x = a ∨ x ∈ l := by
  induction l with
  | nil => simp [insertBy]
  | cons b bs ih =>
    simp only [insertBy]
    by_cases h : le a b = true
    · simp [h]
    · simp only [h, if_neg]
      simp [ih]
      tauto

theorem mem_sortBy {α : Type} (le : α → α → Bool) (x : α) (l : List α) :
    x ∈ sortBy le l ↔ x ∈ l := by
  induction l with
  | nil => simp [sortBy]
  | cons a as ih => simp [sortBy, mem_insertBy, ih]

theorem mem_of_mem_pageTake {α : Type} {limit : Int} {x : α} {l : List α}
    (h : x ∈ pageTake limit l) : x ∈ l := by
  unfold pageTake at h
  by_cases h0 : limit == 0
  · simpa [h0] using h
  · simp only [h0, if_neg, Bool.false_eq_true, not_false_iff] at h
    exact List.mem_of_mem_take h

theorem updateFirst_of_no_match {α : Type} (p : α → Bool) (f : α → α)
    (l : List α) (h : ∀ a ∈ l, p a = false) : updateFirst p f l = l := by
  induction l with
  | nil => rfl
  | cons a as ih =>
    simp only [updateFirst, h a (List.mem_cons_self a as)]
    simp only [Bool.false_eq_true, if_neg, not_false_iff, List.cons.injEq, true_and]
    exact ih (fun b hb => h b (List.mem_cons_of_mem a hb))

theorem removeFirst_of_no_match {α : Type} (p : α → Bool)
    (l : List α) (h : ∀ a ∈ l, p a = false) : removeFirst p l = l := by
  induction l with
  | nil => rfl
  | cons a as ih =>
    simp only [removeFirst, h a (List.mem_cons_self a as)]
    simp only [Bool.false_eq_true, if_neg, not_false_iff, List.cons.injEq, true_and]
    exact ih (fun b hb => h b (List.mem_cons_of_mem a hb))

/-- When the matched key occurs at most once (here: the mapped keys are
nodup), updating the first match is updating every match. -/
theorem updateFirst_key_eq_map {α : Type} (key : α → Nat) (v : Nat) (f : α → α)
    (l : List α) (h : (l.map key).Nodup) :
    updateFirst (fun a => key a == v) f l
      = l.map (fun a => if key a == v then f a else a) := by
  induction l with
  | nil => rfl
  | cons a as ih =>
    simp only [List.map_cons, List.nodup_cons] at h
    by_cases hv : key a == v
    · simp only [updateFirst, hv, if_pos, List.map_cons]
      have : ∀ b ∈ as, (key b == v) = false := by
        intro b hb
        have hne : key b ≠ key a := by
          intro he
          exact h.1 (he ▸ List.mem_map_of_mem key hb)
        have hva : key a = v := by simpa using hv
        simp [hva ▸ hne]
      congr 1
      rw [List.map_congr_left]
      · exact (List.map_id as).symm
      · intro b hb
        simp [this b hb]
    · simp only [updateFirst, hv]
      simp only [Bool.false_eq_true, if_neg, not_false_iff, List.map_cons, List.cons.injEq]
      exact ⟨by simp [hv], ih h.2⟩

theorem parseOids_ok (ids : List String) (h : ∀ s ∈ ids, isValidOid s = true) :
    parseOids ids = Except.ok (ids.map oidVal) := by
  induction ids with
  | nil => rfl
  | cons s rest ih =>
    have hs := h s (List.mem_cons_self s rest)
    have hrest := ih (fun x hx => h x (List.mem_cons_of_mem s hx))
    simp [parseOids, parseOid, hs, hrest]

theorem parseOids_err (ids : List String) (s : String) (hs : s ∈ ids)
    (h : isValidOid s = false) : ∃ msg, parseOids ids = Except.error (ApiErr.unhandled msg) := by
  induction ids with
  | nil => cases hs
  | cons a rest ih =>
    by_cases ha : isValidOid a
    · rcases List.mem_cons.mp hs with he | hm
      · exact absurd (he ▸ h) (by simp [ha])
      · rcases ih hm with ⟨msg, hmsg⟩
        refine ⟨msg, ?_⟩
        simp [parseOids, parseOid, ha, hmsg]
    · refine ⟨"InvalidId: " ++ a, ?_⟩
      simp only [Bool.not_eq_true] at ha
      simp [parseOids, parseOid, ha]

theorem findPos_of_not_mem (v : Nat) (l : List Nat) (h : v ∉ l) :
    findPos v l = none := by
  induction l with
  | nil => rfl
  | cons x xs ih =>
    have hx : (x == v) = false := by
      simp only [List.mem_cons, not_or] at h
      simp [Ne.symm h.1]
    simp only [findPos, hx, Bool.false_eq_true, if_neg, not_false_iff]
    have := ih (fun hm => h (List.mem_cons_of_mem x hm))
    simp [this]

/-! ## Rate-limiter lemmas -/

theorem cacheGet_set_self (c : RateCache) (k : String) (v : List ℚ) :
    cacheGet (cacheSet c k v) k = v := by
  simp [cacheGet, cacheSet, List.lookup]

theorem lookup_filter_ne (k k' : String) (h : k' ≠ k) (c : List (String × List ℚ)) :
    List.lookup k' (c.filter (fun e => e.1 != k)) = List.lookup k' c := by
  induction c with
  | nil => rfl
  | cons e es ih =>
    obtain ⟨e1, e2⟩ := e
    by_cases he : e1 = k
    · have h1 : ((e1, e2).1 != k) = false := by simp [he]
      have h2 : (k' == e1) = false := by simp [he ▸ h]
      simp only [List.filter_cons, h1, List.lookup, h2]
      simpa using ih
    · have h1 : ((e1, e2).1 != k) = true := by simp [he]
      simp only [List.filter_cons, h1, List.lookup]
      by_cases hk' : k' = e1
      · simp [hk']
      · have h2 : (k' == e1) = false := by simp [hk']
        simp only [h2]
        simpa using ih

theorem cacheGet_set_ne (c : RateCache) (k k' : String) (v : List ℚ)
    (h : k' ≠ k) : cacheGet (cacheSet c k v) k' = cacheGet c k' := by
  have hk : (k' == k) = false := by simp [h]
  simp only [cacheGet, cacheSet, List.lookup, hk]
  rw [lookup_filter_ne k k' h c]

/-- Pruning at an earlier instant never removes a timestamp that is still
inside the window at a later instant. -/
theorem filter_window_filter (l : List ℚ) (t now : ℚ) (h : t ≤ now) :
    (l.filter (fun s => decide (t - s < 60))).filter (fun s => decide (now - s < 60))
      = l.filter (fun s => decide (now - s < 60)) := by
  induction l with
  | nil => rfl
  | cons a as ih =>
    by_cases hnow : now - a < 60
    · have ht : t - a < 60 := lt_of_le_of_lt (by linarith) hnow
      simp only [List.filter_cons, decide_eq_true_eq]
      rw [if_pos ht]
      simp only [List.filter_cons, decide_eq_true_eq]
      rw [if_pos hnow, if_pos hnow, ih]
    · by_cases ht : t - a < 60
      · simp only [List.filter_cons, decide_eq_true_eq]
        rw [if_pos ht]
        simp only [List.filter_cons, decide_eq_true_eq]
        rw [if_neg hnow, if_neg hnow, ih]
      · simp only [List.filter_cons, decide_eq_true_eq]
        rw [if_neg ht, if_neg hnow, ih]

/-- Invariant of the rate-limiter run: seen through any window that starts no
earlier than every processed submission, the cache entry of a key holds
exactly the accepted submission times of that key. -/
theorem runRL_window (es : List (String × ℚ)) :
    ∀ (c : RateCache) (k : String) (now : ℚ), (∀ p ∈ es, p.2 ≤ now) →
      (cacheGet (runRL c es).1 k).filter (fun s => decide (now - s < 60))
        = (cacheGet c k).filter (fun s => decide (now - s < 60))
            ++ (acceptedTimes c k es).filter (fun s => decide (now - s < 60)) := by
  induction es with
  | nil => intro c k now _; simp [runRL, acceptedTimes]
  | cons e rest ih =>
    intro c k now hle
    obtain ⟨k', t⟩ := e
    have hts : t ≤ now := hle (k', t) (List.mem_cons_self _ _)
    have hrest : ∀ p ∈ rest, p.2 ≤ now :=
      fun p hp => hle p (List.mem_cons_of_mem _ hp)
    simp only [runRL, acceptedTimes]
    by_cases hacc : (contactRL c k' t).1 = true
    · -- accepted: the cache entry of k' became (pruned entry) ++ [t]
      have hc2 : (contactRL c k' t).2
          = cacheSet c k' ((cacheGet c k').filter (fun s => decide (t - s < 60)) ++ [t]) := by
        unfold contactRL at hacc ⊢
        by_cases h3 : 3 ≤ ((cacheGet c k').filter (fun s => decide (t - s < 60))).length
        · simp [h3] at hacc
        · simp [h3]
      rw [ih (contactRL c k' t).2 k now hrest]
      by_cases hkk : k' = k
      · subst hkk
        rw [hc2, cacheGet_set_self]
        simp only [hacc, Bool.and_true, beq_self_eq_true, if_pos]
        rw [List.filter_append, filter_window_filter _ _ _ hts]
        by_cases hpt : now - t < 60
        · simp [List.filter_cons, hpt, List.append_assoc]
        · simp [List.filter_cons, hpt, List.append_assoc]
      · rw [hc2, cacheGet_set_ne _ _ _ _ (Ne.symm hkk)]
        have : (k' == k) = false := by simp [hkk]
        simp [this]
    · -- rejected: the cache is unchanged
      have hc2 : (contactRL c k' t).2 = c := by
        unfold contactRL at hacc ⊢
        by_cases h3 : 3 ≤ ((cacheGet c k').filter (fun s => decide (t - s < 60))).length
        · simp [h3]
        · simp [h3] at hacc
      rw [ih (contactRL c k' t).2 k now hrest, hc2]
      have : ¬ ((k' == k) = true ∧ (contactRL c k' t).1 = true) := fun h => hacc h.2
      simp only [Bool.and_eq_true, this, if_neg, not_false_iff]
      simp

/-! ## Reorder-loop characterization -/

/-- The per-document effect of a whole reorder pass: the position of the
document id in the parsed id sequence, offset by the loop base index. -/
def reassignFrom (vs : List Nat) (n : Nat) (d : ProjectDoc) : ProjectDoc :=
  match findPos d.oid vs with
  | some i => { d with data := { d.data with orderIndex := ((n + i : Nat) : Int) } }
  | none => d

theorem reorderLoop_spec (ids : List String) :
    ∀ (docs : List ProjectDoc) (n : Nat),
      (∀ s ∈ ids, isValidOid s = true) →
      ((ids.map oidVal).Nodup) →
      ((docs.map ProjectDoc.oid).Nodup) →
      reorderLoop docs n ids = (Except.ok (), docs.map (reassignFrom (ids.map oidVal) n)) := by
  induction ids with
  | nil =>
    intro docs n _ _ _
    simp only [reorderLoop, List.map_nil]
    have : ∀ d ∈ docs, reassignFrom [] n d = d := by
      intro d _; simp [reassignFrom, findPos]
    rw [List.map_congr_left this]
    simp
  | cons id rest ih =>
    intro docs n hvalid hnodup hdocs
    have hid : isValidOid id = true := hvalid id (List.mem_cons_self _ _)
    have hrest : ∀ s ∈ rest, isValidOid s = true :=
      fun s hs => hvalid s (List.mem_cons_of_mem _ hs)
    simp only [List.map_cons, List.nodup_cons] at hnodup
    simp only [reorderLoop, parseOid, hid, if_pos]
    set v := oidVal id with hv
    set g0 : ProjectDoc → ProjectDoc := fun d =>
      if d.oid == v then { d with data := { d.data with orderIndex := (n : Int) } } else d
      with hg0
    have hupd : updateFirst (fun d => d.oid == v)
        (fun d => { d with data := { d.data with orderIndex := (n : Int) } }) docs
        = docs.map g0 :=
      updateFirst_key_eq_map ProjectDoc.oid v _ docs hdocs
    rw [hupd]
    have hdocs' : ((docs.map g0).map ProjectDoc.oid).Nodup := by
      have : (docs.map g0).map ProjectDoc.oid = docs.map ProjectDoc.oid := by
        rw [List.map_map]
        apply List.map_congr_left
        intro d _
        simp only [Function.comp, hg0]
        split <;> rfl
      rw [this]; exact hdocs
    rw [ih (docs.map g0) (n + 1) hrest hnodup.2 hdocs']
    rw [List.map_map]
    congr 1
    apply List.map_congr_left
    intro d _
    by_cases hd : d.oid = v
    · have hdv : (d.oid == v) = true := by simp [hd]
      have hnm : v ∉ rest.map oidVal := hnodup.1
      simp only [Function.comp, hg0, hdv, if_pos, reassignFrom]
      have : findPos d.oid (rest.map oidVal) = none := by
        rw [hd]; exact findPos_of_not_mem _ _ hnm
      simp only [this]
      simp only [findPos, List.map_cons]
      have : (v == d.oid) = true := by simp [hd]
      simp [this]
    · have hdv : (d.oid == v) = false := by simp [hd]
      simp only [Function.comp, hg0, hdv, reassignFrom]
      simp only [Bool.false_eq_true, if_neg, not_false_iff]
      have hvd : (v == d.oid) = false := by simp [Ne.symm hd]
      simp only [findPos, List.map_cons, hvd, Bool.false_eq_true, if_neg, not_false_iff]
      cases hfp : findPos d.oid (rest.map oidVal) with
      | none => simp
      | some i =>
        simp only [Option.map_some]
        have : n + 1 + i = n + (i + 1) := by omega
        simp [this]

/-! ## Claim theorems -/

/-- C1: a document with `deleted = true` never appears in any public read:
not in the paginated project list under any published/tag/search filter, not
as a slug lookup result, and not in the skill, testimonial or certificate
lists; when every document carrying a slug is soft-deleted, the slug lookup
fails with 404 Not Found. -/
theorem soft_deleted_invisible_to_public_reads (st : DB) :
    (∀ (published : Option Bool) (tag search : Option String) (page limit : Int)
        (r : PageResp), list_projects st published tag search page limit = Except.ok r →
        ∀ d ∈ r.items, d.data.deleted = false) ∧
    (∀ (slug : String) (d : ProjectDoc), get_project st slug = Except.ok d →
        d.data.deleted = false) ∧
    (∀ (slug : String), (∀ d ∈ st.project, d.data.slug = slug → d.data.deleted = true) →
        get_project st slug = Except.error (ApiErr.http 404 "Not found")) ∧
    (∀ (category search : Option String) (d : SkillDoc),
        d ∈ list_skills st category search → d.data.deleted = false) ∧
    (∀ (d : TestimonialDoc), d ∈ list_testimonials st → d.data.deleted = false) ∧
    (∀ (tag search : Option String) (d : CertificateDoc),
        d ∈ list_certificates st tag search → d.data.deleted = false) := by
  refine ⟨?_, ?_, ?_, ?_, ?_, ?_⟩
  · intro published tag search page limit r hr d hd
    simp only [list_projects] at hr
    by_cases hs : (page - 1) * limit < 0
    · simp [hs] at hr
    · simp only [hs, if_neg, not_false_iff, Except.ok.injEq] at hr
      subst hr
      simp only at hd
      have h1 := List.mem_of_mem_drop (mem_of_mem_pageTake hd)
      have h2 := (mem_sortBy _ _ _).mp h1
      have h3 := (List.mem_filter.mp h2).2
      simp only [projectQueryMatch, Bool.and_eq_true, bne_iff_ne, ne_eq] at h3
      simpa using h3.1.1.1
  · intro slug d hd
    unfold get_project at hd
    cases hfind : st.project.find? (fun d => d.data.slug == slug && d.data.deleted != true) with
    | none => rw [hfind] at hd; cases hd
    | some d0 =>
      rw [hfind] at hd
      cases hd
      have := List.find?_some hfind
      simp only [Bool.and_eq_true, bne_iff_ne, ne_eq] at this
      simpa using this.2
  · intro slug hall
    unfold get_project
    have : st.project.find? (fun d => d.data.slug == slug && d.data.deleted != true) = none := by
      rw [List.find?_eq_none]
      intro d hd
      by_cases hslug : d.data.slug = slug
      · simp [hall d hd hslug]
      · simp [hslug]
    rw [this]
  · intro category search d hd
    have h2 := (mem_sortBy _ _ _).mp hd
    have h3 := (List.mem_filter.mp h2).2
    simp only [skillQueryMatch, Bool.and_eq_true, bne_iff_ne, ne_eq] at h3
    simpa using h3.1.1.1
  · intro d hd
    have h2 := (mem_sortBy _ _ _).mp hd
    have h3 := (List.mem_filter.mp h2).2
    simp only [testimonialQueryMatch, Bool.and_eq_true, bne_iff_ne, ne_eq] at h3
    simpa using h3.1
  · intro tag search d hd
    have h2 := (mem_sortBy _ _ _).mp hd
    have h3 := (List.mem_filter.mp h2).2
    simp only [certificateQueryMatch, Bool.and_eq_true, bne_iff_ne, ne_eq] at h3
    simpa using h3.1.1.1

/-- Witness for C1 at a concrete store: the slug lookup of a soft-deleted
project fails with 404. -/
theorem soft_deleted_invisible_to_public_reads_w :
    get_project
      { project := [{ oid := 1
                      data := { title := "A", slug := "a", shortDesc := "s", deleted := true }
                      created_at := 0, updated_at := 0 }]
        skill := [], testimonial := [], certificate := [], activitylog := [] } "a"
      = Except.error (ApiErr.http 404 "Not found") :=
  (soft_deleted_invisible_to_public_reads _).2.2.1 "a" (by decide)

/-- C2: creating a Project whose slug equals the slug of any existing
document in the project collection — soft-deleted ones included — fails with
the duplicate-slug conflict (HTTP 400) and leaves the store unchanged: no
document is inserted and no log entry is written. -/
theorem create_project_duplicate_slug_conflict (st : DB) (now : Int)
    (payload : Project) (newOid : Nat) (logFails : Bool)
    (hdup : ∃ d ∈ st.project, d.data.slug = payload.slug) :
    create_project st now payload newOid logFails
      = (Except.error (ApiErr.http 400 "Slug already exists"), st) := by
  obtain ⟨d, hd, hslug⟩ := hdup
  have hany : st.project.any (fun d => d.data.slug == payload.slug) = true :=
    List.any_eq_true.mpr ⟨d, hd, by simp [hslug]⟩
  simp [create_project, hany]

/-- Witness for C2: a create colliding with the slug of a soft-deleted
project is rejected with the conflict error and inserts nothing. -/
theorem create_project_duplicate_slug_conflict_w :
    create_project
      { project := [{ oid := 1
                      data := { title := "A", slug := "a", shortDesc := "s", deleted := true }
                      created_at := 0, updated_at := 0 }]
        skill := [], testimonial := [], certificate := [], activitylog := [] } 7
      { title := "B", slug := "a", shortDesc := "t" } 2 false
      = (Except.error (ApiErr.http 400 "Slug already exists"),
          { project := [{ oid := 1
                          data := { title := "A", slug := "a", shortDesc := "s", deleted := true }
                          created_at := 0, updated_at := 0 }]
            skill := [], testimonial := [], certificate := [], activitylog := [] }) :=
  create_project_duplicate_slug_conflict _ 7 _ 2 false (by decide)

/-- C6: with well-formed, pairwise-distinct ids and the store invariant that
document ids are unique, `reorder` succeeds and maps every document either
to itself (id not listed) or to the same document with `orderIndex` replaced
by the 0-based position of its id in the sequence; no other field and no
other collection changes. -/
theorem reorder_assigns_positional_index (st : DB) (ids : List String)
    (hvalid : ∀ s ∈ ids, isValidOid s = true)
    (hids : (ids.map oidVal).Nodup)
    (hdocs : (st.project.map ProjectDoc.oid).Nodup) :
    reorder_projects st ids
      = (Except.ok (),
          { st with project := st.project.map (reassignFrom (ids.map oidVal) 0) }) := by
  simp only [reorder_projects]
  rw [reorderLoop_spec ids st.project 0 hvalid hids hdocs]
  rfl

/-- Witness for C6: on a collection holding exactly ids 10, 11, 12,
reordering by [11, 10, 12] yields orderIndex 11 = 0, 10 = 1, 12 = 2. -/
theorem reorder_assigns_positional_index_w :
    (reorder_projects
      { project :=
          [{ oid := 10, data := { title := "a", slug := "a", shortDesc := "a" }
             created_at := 0, updated_at := 0 },
           { oid := 11, data := { title := "b", slug := "b", shortDesc := "b" }
             created_at := 0, updated_at := 0 },
           { oid := 12, data := { title := "c", slug := "c", shortDesc := "c" }
             created_at := 0, updated_at := 0 }]
        skill := [], testimonial := [], certificate := [], activitylog := [] }
      [oidStr 11, oidStr 10, oidStr 12]).2.project.map
        (fun d => (d.oid, d.data.orderIndex)) = [(10, 1), (11, 0), (12, 2)] := by
  rw [reorder_assigns_positional_index _ _ (by decide) (by decide) (by decide)]
  decide

/-- C7: with well-formed ids, bulk-publish succeeds unconditionally and
rewrites exactly the documents whose id is listed, setting `published` and
refreshing `updated_at`; unlisted documents, the other fields of listed
documents, and every other collection are untouched; ids matching no
document have no effect. -/
theorem bulk_publish_updates_exactly_listed (st : DB) (now : Int)
    (ids : List String) (pub : Bool)
    (hvalid : ∀ s ∈ ids, isValidOid s = true) :
    bulk_publish_projects st now ids pub
      = (Except.ok (),
          { st with project := st.project.map (fun d =>
              if (ids.map oidVal).contains d.oid then
                { d with data := { d.data with published := pub }, updated_at := now }
              else d) }) := by
  simp only [bulk_publish_projects]
  rw [parseOids_ok ids hvalid]

/-- Witness for C7: publishing ids [10, 99] where 99 matches nothing sets
`published` on document 10 only, leaves document 11 untouched, and reports
success. -/
theorem bulk_publish_updates_exactly_listed_w :
    bulk_publish_projects
      { project :=
          [{ oid := 10, data := { title := "a", slug := "a", shortDesc := "a" }
             created_at := 0, updated_at := 0 },
           { oid := 11, data := { title := "b", slug := "b", shortDesc := "b" }
             created_at := 0, updated_at := 0 }]
        skill := [], testimonial := [], certificate := [], activitylog := [] }
      5 [oidStr 10, oidStr 99] true
      = (Except.ok (),
          { project :=
              [{ oid := 10, data := { title := "a", slug := "a", shortDesc := "a", published := true }
                 created_at := 0, updated_at := 5 },
               { oid := 11, data := { title := "b", slug := "b", shortDesc := "b" }
                 created_at := 0, updated_at := 0 }]
            skill := [], testimonial := [], certificate := [], activitylog := [] }) := by
  rw [bulk_publish_updates_exactly_listed _ 5 _ true (by decide)]
  decide

/-- The project list with no filters, page 1 and limit 0 (pymongo: no limit)
returns every matching document in sorted order. -/
theorem list_projects_page1_nolimit (st : DB) :
    list_projects st none none none 1 0
      = Except.ok
          { items := sortBy projectSortLE (st.project.filter (projectQueryMatch none none none))
            total := (st.project.filter (projectQueryMatch none none none)).length
            page := 1, limit := 0 } := by
  simp [list_projects, pageTake]

/-- C9: an ordinary full update on a soft-deleted document overwrites its
`deleted` flag with the payload value — there is no not-soft-deleted check —
so a payload with the schema default `deleted = false` resurrects the
document and it shows up again in the public project list. -/
theorem update_resurrects_soft_deleted (st : DB) (now : Int) (id : String)
    (payload : Project) (d : ProjectDoc)
    (hv : isValidOid id = true)
    (hdocs : (st.project.map ProjectDoc.oid).Nodup)
    (hd : d ∈ st.project) (hoid : d.oid = oidVal id)
    (hdel : d.data.deleted = true) (hpl : payload.deleted = false) :
    ∃ st', update_project st now id payload false = (Except.ok (), st') ∧
      ∃ r, list_projects st' none none none 1 0 = Except.ok r ∧
        { oid := d.oid, data := payload, created_at := d.created_at
          updated_at := now } ∈ r.items := by
  have hpv : parseOid id = Except.ok (oidVal id) := by simp [parseOid, hv]
  have hany : st.project.any (fun x => x.oid == oidVal id) = true :=
    List.any_eq_true.mpr ⟨d, hd, by simp [hoid]⟩
  have hupd : update_project st now id payload false
      = (Except.ok (),
          { st with
            project := updateFirst (fun x => x.oid == oidVal id) (applyUpdate payload now) st.project
            activitylog := st.activitylog ++ [projectLog "update" id now] }) := by
    unfold update_project
    rw [hpv]
    simp [hany]
  refine ⟨_, hupd, ?_⟩
  rw [list_projects_page1_nolimit]
  refine ⟨_, rfl, ?_⟩
  simp only
  rw [mem_sortBy]
  rw [List.mem_filter]
  constructor
  · rw [updateFirst_key_eq_map ProjectDoc.oid (oidVal id) _ _ hdocs]
    have hif : (d.oid == oidVal id) = true := by simp [hoid]
    have hmm := List.mem_map_of_mem
      (fun a => if a.oid == oidVal id then applyUpdate payload now a else a) hd
    simpa [hif, applyUpdate] using hmm
  · simp [projectQueryMatch, optActive, hpl]

/-- Witness for C9: updating the single soft-deleted document with a default
payload brings it back into the public list. -/
theorem update_resurrects_soft_deleted_w :
    ∃ st', update_project
        { project := [{ oid := 5
                        data := { title := "A", slug := "a", shortDesc := "s", deleted := true }
                        created_at := 3, updated_at := 3 }]
          skill := [], testimonial := [], certificate := [], activitylog := [] }
        9 (oidStr 5) { title := "B", slug := "a", shortDesc := "t" } false
        = (Except.ok (), st') ∧
      ∃ r, list_projects st' none none none 1 0 = Except.ok r ∧
        { oid := 5, data := { title := "B", slug := "a", shortDesc := "t" }
          created_at := 3, updated_at := 9 } ∈ r.items :=
  update_resurrects_soft_deleted _ 9 (oidStr 5) _
    { oid := 5
      data := { title := "A", slug := "a", shortDesc := "s", deleted := true }
      created_at := 3, updated_at := 3 }
    (by decide) (by decide) (by decide) (by decide) (by decide) (by decide)

/-- C10: deleting (soft or hard) a well-formed id that matches no document
still reports success, leaves every collection as it was, and still appends
one `action = delete` log entry carrying that id — the audit log can name
ids that never existed. -/
theorem delete_missing_id_ok_and_logged (st : DB) (now : Int) (id : String)
    (hard : Bool) (hv : isValidOid id = true)
    (hnone : ∀ d ∈ st.project, d.oid ≠ oidVal id) :
    delete_project st now id hard false
      = (Except.ok (),
          { st with activitylog := st.activitylog ++ [projectLog "delete" id now] }) := by
  have hpv : parseOid id = Except.ok (oidVal id) := by simp [parseOid, hv]
  have hno : ∀ d ∈ st.project, ((fun x => x.oid == oidVal id) d) = false := by
    intro d hd; simp [hnone d hd]
  unfold delete_project
  rw [hpv]
  cases hard with
  | true => simp [removeFirst_of_no_match _ _ hno]
  | false => simp [updateFirst_of_no_match _ _ _ hno]

/-- Witness for C10: hard-deleting an absent id on an empty store succeeds
and logs a delete entry for that id. -/
theorem delete_missing_id_ok_and_logged_w :
    delete_project
      { project := [], skill := [], testimonial := [], certificate := [], activitylog := [] }
      4 (oidStr 77) true false
      = (Except.ok (),
          { project := [], skill := [], testimonial := [], certificate := []
            activitylog := [projectLog "delete" (oidStr 77) 4] }) :=
  delete_missing_id_ok_and_logged _ 4 (oidStr 77) true (by decide) (by decide)

/-- C3 counterexample: the activity-log insert is not wrapped in any
exception handler.  Creating a project on an empty store while the log write
fails reports the unhandled error to the caller — not success — even though
the project document was already inserted. -/
theorem activitylog_failure_not_swallowed_cex :
    (create_project
        { project := [], skill := [], testimonial := [], certificate := [], activitylog := [] }
        0 { title := "A", slug := "a", shortDesc := "s" } 1 true).1
      = Except.error (ApiErr.unhandled "activitylog insert failed")
    ∧ (create_project
        { project := [], skill := [], testimonial := [], certificate := [], activitylog := [] }
        0 { title := "A", slug := "a", shortDesc := "s" } 1 true).2.project ≠ [] := by
  decide

/-- C3 amended: a failing activity-log append leaves the primary effect on
the entity collection exactly as in the non-failing run, but the operation
reports the unhandled log error to the caller instead of success, for
create, update and delete alike. -/
theorem activitylog_failure_propagates (st : DB) (now : Int) (payload : Project)
    (newOid : Nat) (id : String) (hard : Bool) :
    ((create_project st now payload newOid true).2.project
        = (create_project st now payload newOid false).2.project
      ∧ (∀ r, (create_project st now payload newOid false).1 = Except.ok r →
          (create_project st now payload newOid true).1
            = Except.error (ApiErr.unhandled "activitylog insert failed")))
    ∧ ((update_project st now id payload true).2.project
        = (update_project st now id payload false).2.project
      ∧ (∀ u, (update_project st now id payload false).1 = Except.ok u →
          (update_project st now id payload true).1
            = Except.error (ApiErr.unhandled "activitylog insert failed")))
    ∧ ((delete_project st now id hard true).2.project
        = (delete_project st now id hard false).2.project
      ∧ (∀ u, (delete_project st now id hard false).1 = Except.ok u →
          (delete_project st now id hard true).1
            = Except.error (ApiErr.unhandled "activitylog insert failed"))) := by
  refine ⟨⟨?_, ?_⟩, ⟨?_, ?_⟩, ⟨?_, ?_⟩⟩
  · by_cases hdup : st.project.any (fun d => d.data.slug == payload.slug) <;>
      simp [create_project, hdup]
  · intro r hr
    by_cases hdup : st.project.any (fun d => d.data.slug == payload.slug) <;>
      simp [create_project, hdup] at hr ⊢
  · cases hpo : parseOid id with
    | error e => simp [update_project, hpo]
    | ok v =>
      by_cases hany : st.project.any (fun d => d.oid == v) <;>
        simp [update_project, hpo, hany]
  · intro u hu
    cases hpo : parseOid id with
    | error e => simp [update_project, hpo] at hu
    | ok v =>
      by_cases hany : st.project.any (fun d => d.oid == v) <;>
        simp [update_project, hpo, hany] at hu ⊢
  · cases hpo : parseOid id with
    | error e => simp [delete_project, hpo]
    | ok v => simp [delete_project, hpo]
  · intro u hu
    cases hpo : parseOid id with
    | error e => simp [delete_project, hpo] at hu
    | ok v => simp [delete_project, hpo]

/-- Witness for C3 amended: a soft delete whose log write fails surfaces the
unhandled error. -/
theorem activitylog_failure_propagates_w :
    (delete_project
        { project := [], skill := [], testimonial := [], certificate := [], activitylog := [] }
        2 (oidStr 3) false true).1
      = Except.error (ApiErr.unhandled "activitylog insert failed") :=
  (activitylog_failure_propagates
    { project := [], skill := [], testimonial := [], certificate := [], activitylog := [] }
    2 { title := "A", slug := "a", shortDesc := "s" } 1 (oidStr 3) false).2.2.2 () (by decide)

/-- C4 counterexample: updating with a malformed id string fails with the
unhandled `InvalidId` exception — a server error, not a client error. -/
theorem malformed_id_server_error_cex :
    (update_project
        { project := [], skill := [], testimonial := [], certificate := [], activitylog := [] }
        0 "not-a-valid-objectid" { title := "A", slug := "a", shortDesc := "s" } false).1
      = Except.error (ApiErr.unhandled "InvalidId: not-a-valid-objectid")
    ∧ isClientError (ApiErr.unhandled "InvalidId: not-a-valid-objectid") = false := by
  decide

/-- The reorder loop aborts with the unhandled invalid-id error as soon as
some listed id is malformed. -/
theorem reorderLoop_err (ids : List String) :
    ∀ (docs : List ProjectDoc) (n : Nat), (∃ s ∈ ids, isValidOid s = false) →
      ∃ msg, (reorderLoop docs n ids).1 = Except.error (ApiErr.unhandled msg) := by
  induction ids with
  | nil => intro docs n h; obtain ⟨s, hs, _⟩ := h; cases hs
  | cons a rest ih =>
    intro docs n h
    by_cases ha : isValidOid a
    · obtain ⟨s, hs, hbad⟩ := h
      rcases List.mem_cons.mp hs with he | hm
      · exact absurd (he ▸ hbad) (by simp [ha])
      · obtain ⟨msg, hmsg⟩ := ih _ (n + 1) ⟨s, hm, hbad⟩
        refine ⟨msg, ?_⟩
        simp only [reorderLoop, parseOid, ha, if_pos]
        exact hmsg
    · refine ⟨"InvalidId: " ++ a, ?_⟩
      simp only [Bool.not_eq_true] at ha
      simp [reorderLoop, parseOid, ha]

/-- C4 amended: a malformed id does not produce a client error; it raises
the unhandled `InvalidId` exception (surfaced as a 500 server error).
Update and delete then leave the store unchanged, bulk-publish aborts before
any write, and reorder aborts mid-loop with the same unhandled error. -/
theorem malformed_id_raises_unhandled (st : DB) (now : Int) (id : String)
    (payload : Project) (pub hard : Bool) (ids : List String)
    (hbad : isValidOid id = false) :
    (update_project st now id payload false
        = (Except.error (ApiErr.unhandled ("InvalidId: " ++ id)), st))
    ∧ (delete_project st now id hard false
        = (Except.error (ApiErr.unhandled ("InvalidId: " ++ id)), st))
    ∧ (id ∈ ids →
        (∃ msg, (bulk_publish_projects st now ids pub).1
            = Except.error (ApiErr.unhandled msg))
          ∧ (bulk_publish_projects st now ids pub).2 = st)
    ∧ (id ∈ ids →
        ∃ msg, (reorder_projects st ids).1 = Except.error (ApiErr.unhandled msg)) := by
  have hpo : parseOid id = Except.error (ApiErr.unhandled ("InvalidId: " ++ id)) := by
    simp [parseOid, hbad]
  refine ⟨?_, ?_, ?_, ?_⟩
  · unfold update_project; rw [hpo]
  · unfold delete_project; rw [hpo]
  · intro hmem
    obtain ⟨msg, hmsg⟩ := parseOids_err ids id hmem hbad
    constructor
    · exact ⟨msg, by simp [bulk_publish_projects, hmsg]⟩
    · simp [bulk_publish_projects, hmsg]
  · intro hmem
    obtain ⟨msg, hmsg⟩ := reorderLoop_err ids st.project 0 ⟨id, hmem, hbad⟩
    refine ⟨msg, ?_⟩
    simp only [reorder_projects, hmsg]
    rfl

/-- Witness for C4 amended: deleting with id "zz" yields the unhandled
invalid-id error and an unchanged store. -/
theorem malformed_id_raises_unhandled_w :
    delete_project
      { project := [], skill := [], testimonial := [], certificate := [], activitylog := [] }
      1 "zz" true false
      = (Except.error (ApiErr.unhandled "InvalidId: zz"),
         { project := [], skill := [], testimonial := [], certificate := [], activitylog := [] }) :=
  (malformed_id_raises_unhandled
    { project := [], skill := [], testimonial := [], certificate := [], activitylog := [] }
    1 "zz" { title := "A", slug := "a", shortDesc := "s" } true true [] (by decide)).2.1

/-- C5 counterexample: `limit = 0` is not rejected as a caller error — the
call succeeds and pymongo treats 0 as "no limit", returning every matching
document (here the single published project). -/
theorem pagination_limit_zero_not_rejected_cex :
    list_projects
      { project := [{ oid := 1
                      data := { title := "A", slug := "a", shortDesc := "s", published := true }
                      created_at := 0, updated_at := 0 }]
        skill := [], testimonial := [], certificate := [], activitylog := [] }
      none none none 1 0
      = Except.ok
          { items := [{ oid := 1
                        data := { title := "A", slug := "a", shortDesc := "s", published := true }
                        created_at := 0, updated_at := 0 }]
            total := 1, page := 1, limit := 0 } := by
  decide

/-- C5 amended: page and limit are not validated.  Whenever the computed
skip `(page-1)*limit` is negative (e.g. `page < 1` with a positive limit)
the endpoint fails with the unhandled pymongo ValueError — a server error,
not a caller error; `limit = 0` silently disables pagination.  Whenever the
skip is nonnegative the call succeeds and `total` is the count of matching
documents before skip/limit are applied. -/
theorem pagination_unvalidated_total_precount (st : DB) (published : Option Bool)
    (tag search : Option String) (page limit : Int) :
    ((page - 1) * limit < 0 →
        list_projects st published tag search page limit
          = Except.error (ApiErr.unhandled "ValueError: skip must be a nonnegative integer"))
    ∧ (0 ≤ (page - 1) * limit →
        ∃ items, list_projects st published tag search page limit
          = Except.ok
              { items := items
                total := (st.project.filter (projectQueryMatch published tag search)).length
                page := page, limit := limit }) := by
  constructor
  · intro h
    simp [list_projects, h]
  · intro h
    refine ⟨pageTake limit ((sortBy projectSortLE
      (st.project.filter (projectQueryMatch published tag search))).drop
        ((page - 1) * limit).toNat), ?_⟩
    simp [list_projects, not_lt.mpr h]

/-- Witness for C5 amended: `page = 0` with `limit = 10` surfaces the
unhandled negative-skip error. -/
theorem pagination_unvalidated_total_precount_w :
    list_projects
      { project := [], skill := [], testimonial := [], certificate := [], activitylog := [] }
      none none none 0 10
      = Except.error (ApiErr.unhandled "ValueError: skip must be a nonnegative integer") :=
  (pagination_unvalidated_total_precount
    { project := [], skill := [], testimonial := [], certificate := [], activitylog := [] }
    none none none 0 10).1 (by decide)

/-- C8: starting from an empty rate-limiter cache, a submission from key `k`
at time `t` (no earlier than every previous submission) is accepted exactly
when fewer than 3 submissions from `k` were accepted strictly within the
preceding 60 seconds. -/
theorem contact_rate_limit_window (es : List (String × ℚ)) (k : String) (t : ℚ)
    (hmono : ∀ p ∈ es, p.2 ≤ t) :
    (contactRL (runRL emptyCache es).1 k t).1 = true
      ↔ ((acceptedTimes emptyCache k es).filter
            (fun s => decide (t - s < 60))).length < 3 := by
  have hinv := runRL_window es emptyCache k t hmono
  have hget : cacheGet emptyCache k = [] := rfl
  rw [hget] at hinv
  simp only [List.filter_nil, List.nil_append] at hinv
  simp only [contactRL]
  rw [hinv]
  by_cases h3 : 3 ≤ ((acceptedTimes emptyCache k es).filter
      (fun s => decide (t - s < 60))).length
  · simp only [h3, if_pos]
    constructor
    · intro hfalse; cases hfalse
    · intro hlt; omega
  · simp only [h3, if_neg, not_false_iff]
    constructor
    · intro _; omega
    · intro _; trivial

/-- Witness for C8: after three accepted submissions in the window, a fourth
from the same key is rejected. -/
theorem contact_rate_limit_window_w :
    (contactRL (runRL emptyCache [("k", 0), ("k", 0), ("k", 0)]).1 "k" 0).1 = false := by
  have h := contact_rate_limit_window [("k", 0), ("k", 0), ("k", 0)] "k" 0 (by decide)
  rw [show ((acceptedTimes emptyCache "k" [("k", 0), ("k", 0), ("k", 0)]).filter
      (fun s => decide ((0 : ℚ) - s < 60))).length = 3 from by
    simp [acceptedTimes, contactRL, runRL, cacheGet, cacheSet, emptyCache,
      (by decide : ((0 : ℚ) < 60))]] at h
  simpa using h

end Portfolio
